import Mathlib

/-!
Shallow embedding of `serverless-plugin-healthcheck` (Financial Times).
Source files: `src/src/index.js` (endpoint-style variant),
`src/unnamed/part_000` (same plugin plus a `role` option),
`src/unnamed/part_001` (older variant with an inline generated-handler template).
-/

/-- A JavaScript/JSON value, as far as the plugin's configuration and
declaration surfaces inspect one: `typeof`/`Array.isArray` checks and strict
equality against booleans and strings. Objects appear only as opaque payloads
(`params`/`format`) and are represented by `obj`. -/
inductive JsVal where
  | undefined : JsVal
  | null : JsVal
  | bool (b : Bool) : JsVal
  | num (n : Int) : JsVal
  | str (s : String) : JsVal
  | arr (xs : List JsVal) : JsVal
  | obj (fields : List (String × JsVal)) : JsVal
deriving Repr

mutual

/-- Strict equality `===` on values. JavaScript compares arrays and objects by
reference; the plugin only ever compares a value against a boolean or a
string, and on those comparisons structural equality coincides with `===`
(an array or object is never `===` a boolean or string). -/
def JsVal.beq : JsVal → JsVal → Bool
  | JsVal.undefined, JsVal.undefined => true
  | JsVal.null, JsVal.null => true
  | JsVal.bool a, JsVal.bool b => a == b
  | JsVal.num a, JsVal.num b => a == b
  | JsVal.str a, JsVal.str b => a == b
  | JsVal.arr xs, JsVal.arr ys => JsVal.beqList xs ys
  | JsVal.obj xs, JsVal.obj ys => JsVal.beqFields xs ys
  | _, _ => false

/-- Element-wise equality of value lists. -/
def JsVal.beqList : List JsVal → List JsVal → Bool
  | [], [] => true
  | x :: xs, y :: ys => JsVal.beq x y && JsVal.beqList xs ys
  | _, _ => false

/-- Field-wise equality of object field lists. -/
def JsVal.beqFields : List (String × JsVal) → List (String × JsVal) → Bool
  | [], [] => true
  | (k, v) :: xs, (l, w) :: ys => k == l && JsVal.beq v w && JsVal.beqFields xs ys
  | _, _ => false

end

instance : BEq JsVal := ⟨JsVal.beq⟩

/-- `typeof v === 'boolean'` -/
def jsIsBool : JsVal → Bool
  | JsVal.bool _ => true
  | _ => false

/-- `typeof v === 'number'` -/
def jsIsNum : JsVal → Bool
  | JsVal.num _ => true
  | _ => false

/-- `typeof v === 'string'` -/
def jsIsStr : JsVal → Bool
  | JsVal.str _ => true
  | _ => false

/-- `Array.isArray(v)` -/
def jsIsArray : JsVal → Bool
  | JsVal.arr _ => true
  | _ => false

/-- JavaScript truthiness of a value (`NaN` is not modelled; `num` carries
integers, of which exactly `0` is falsy). -/
def jsTruthy : JsVal → Bool
  | JsVal.undefined => false
  | JsVal.null => false
  | JsVal.bool b => b
  | JsVal.num n => n != 0
  | JsVal.str s => s != ""
  | JsVal.arr _ => true
  | JsVal.obj _ => true

/-- `Array.prototype.indexOf` with strict (`===`) element comparison, starting
from index `i`. For the values the plugin compares (a stage-name string
against array elements) structural equality coincides with `===`. -/
def jsIndexOfFrom (xs : List JsVal) (v : JsVal) (i : Int) : Int :=
  match xs with
  | [] => -1
  | x :: rest => if x == v then i else jsIndexOfFrom rest v (i + 1)

/-- `xs.indexOf(v)` -/
def jsIndexOf (xs : List JsVal) (v : JsVal) : Int :=
  jsIndexOfFrom xs v 0

/-- Property access `v.k` on a JavaScript value: the field's value on an
object that has the field, `undefined` otherwise. -/
def jsGetField : JsVal → String → JsVal
  | JsVal.obj fs, k =>
      match fs.find? (fun p => p.1 == k) with
      | some p => p.2
      | none => JsVal.undefined
  | _, _ => JsVal.undefined

/-- An HTTP-triggered event of a declared function, as inspected by
`getEventsWithHealthChecks`: only its `http.healthcheck` value matters. -/
structure HttpEventDecl where
  healthcheck : JsVal
deriving Repr

/-- A collected per-event check `{params, format}`
(`src/src/index.js` lines 241-244). -/
structure EventCheck where
  params : JsVal
  format : JsVal
deriving Repr

/-- A declared function of the service: its deployed `name`, its
function-level `healthcheck` declaration, and its events. -/
structure FunctionObject where
  name : String
  healthcheck : JsVal
  events : List HttpEventDecl
deriving Repr

/-- The record built per function by `getFunctionsWithHealthChecks`
(`src/src/index.js` lines 213-217): `{name, stage, checks}`. -/
structure FunctionInfo where
  name : String
  stage : JsVal
  checks : List EventCheck
deriving Repr

/-- `getEventsWithHealthChecks` (`src/src/index.js` lines 236-248): reduce
over the function's events, pushing `{params, format}` for every event whose
`http.healthcheck` is truthy. -/
def getEventsWithHealthChecks (events : List HttpEventDecl) : List EventCheck :=
  events.foldl
    (fun healthchecks e =>
      if jsTruthy e.healthcheck then
        healthchecks ++
          [{ params := jsGetField e.healthcheck "params",
             format := jsGetField e.healthcheck "format" }]
      else healthchecks)
    []

/-- The per-function mapping step of `getFunctionsWithHealthChecks`
(`src/src/index.js` lines 211-218). -/
def healthCheckInfo (f : FunctionObject) : FunctionInfo :=
  { name := f.name
    stage := f.healthcheck
    checks := getEventsWithHealthChecks f.events }

/-- The filter condition of `getFunctionsWithHealthChecks`
(`src/src/index.js` lines 222-225):
`stage === true || stage === options.stage ||
 (Array.isArray(stage) && stage.indexOf(options.stage) !== -1)`. -/
def stageMatches (stage : JsVal) (activeStage : String) : Bool :=
  stage == JsVal.bool true || stage == JsVal.str activeStage ||
    (match stage with
     | JsVal.arr xs => jsIndexOf xs (JsVal.str activeStage) != -1
     | _ => false)

/-- `getFunctionsWithHealthChecks` (`src/src/index.js` lines 210-229): map
every declared function to `{name, stage, checks}`, then keep those whose
filter condition holds (`BbPromise.filter` keeps an element exactly when the
callback's return value is truthy, and the callback returns the — truthy —
record when the condition holds and `undefined` otherwise). -/
def getFunctionsWithHealthChecks (fns : List FunctionObject) (activeStage : String) :
    List FunctionInfo :=
  (fns.map healthCheckInfo).filter (fun info => stageMatches info.stage activeStage)

/-- Modelled from the spec's words, for refinement comparison with the code's
filter condition: a descriptor is included iff its health-check declaration is
boolean `true`, or is a string equal to the active stage, or is a list
containing the active stage string; every other shape is excluded. -/
def spec_targetIncluded (decl : JsVal) (activeStage : String) : Bool :=
  decl == JsVal.bool true || decl == JsVal.str activeStage ||
    (match decl with
     | JsVal.arr xs => xs.any (fun x => x == JsVal.str activeStage)
     | _ => false)

/-- The user-supplied `custom.healthcheck` override object. Each field holds
whatever value the user wrote in `serverless.yml` (or `undefined` when
absent); `configPlugin` type-checks each one before applying it. -/
structure CustomHealthcheck where
  folderName : JsVal := JsVal.undefined
  cleanFolder : JsVal := JsVal.undefined
  memorySize : JsVal := JsVal.undefined
  role : JsVal := JsVal.undefined
  name : JsVal := JsVal.undefined
  schedule : JsVal := JsVal.undefined
  timeout : JsVal := JsVal.undefined
  precheck : JsVal := JsVal.undefined
  endpoint : JsVal := JsVal.undefined
deriving Repr

/-- The resolved plugin configuration (`this.healthcheck` together with
`this.folderName`) after `configPlugin` ran. -/
structure HealthcheckConfig where
  folderName : String
  cleanFolder : Bool
  memorySize : Int
  role : Option String
  name : String
  schedule : List JsVal
  timeout : Int
  precheck : Bool
  endpoint : String
deriving Repr

/-- `if (typeof v === 'boolean') field = v` applied over the default. -/
def overrideBool (v : JsVal) (d : Bool) : Bool :=
  match v with
  | JsVal.bool b => b
  | _ => d

/-- `if (typeof v === 'number') field = v` applied over the default. -/
def overrideNum (v : JsVal) (d : Int) : Int :=
  match v with
  | JsVal.num n => n
  | _ => d

/-- `if (typeof v === 'string') field = v` applied over the default. -/
def overrideStr (v : JsVal) (d : String) : String :=
  match v with
  | JsVal.str s => s
  | _ => d

/-- The default generated-function name
`service + '-' + stage + '-healthcheck-plugin'`. -/
def defaultName (service stage : String) : String :=
  service ++ "-" ++ stage ++ "-healthcheck-plugin"

/-- The default schedule list `['rate(5 minutes)']`. -/
def defaultSchedule : List JsVal := [JsVal.str "rate(5 minutes)"]

/-- `configPlugin` (`src/unnamed/part_000` lines 38-105, which is
`src/src/index.js` lines 88-150 extended with the `role` field): defaults,
then each user override applied only when its `typeof` matches; the schedule
override accepts a string (wrapped into a one-element list) or an array
(taken unchanged). `custom = none` models a missing/falsy
`custom`/`custom.healthcheck`, in which case the defaults are returned
untouched. -/
def configPlugin (service stage : String) (custom : Option CustomHealthcheck) :
    HealthcheckConfig :=
  let folderName :=
    match custom with
    | some c => overrideStr c.folderName "_healthcheck"
    | none => "_healthcheck"
  match custom with
  | none =>
      { folderName := folderName
        cleanFolder := true
        memorySize := 128
        role := none
        name := defaultName service stage
        schedule := defaultSchedule
        timeout := 10
        precheck := false
        endpoint := "__health" }
  | some c =>
      { folderName := folderName
        cleanFolder := overrideBool c.cleanFolder true
        memorySize := overrideNum c.memorySize 128
        role :=
          match c.role with
          | JsVal.str s => some s
          | _ => none
        name := overrideStr c.name (defaultName service stage)
        schedule :=
          match c.schedule with
          | JsVal.str s => [JsVal.str s]
          | JsVal.arr xs => xs
          | _ => defaultSchedule
        timeout := overrideNum c.timeout 10
        precheck := overrideBool c.precheck false
        endpoint := overrideStr c.endpoint "__health" }

/-- The HTTP trigger of the generated function
(`src/src/index.js` lines 297-301). -/
structure HttpTrigger where
  path : String
  method : String
  privateFlag : Bool
deriving Repr, DecidableEq

/-- The schedule trigger of the generated function
(`src/src/index.js` lines 302-304): its `rate` holds the whole resolved
schedule list. -/
structure ScheduleTrigger where
  rate : List JsVal
deriving Repr

/-- One entry of the generated function's `events` list
(`src/src/index.js` lines 296-305). -/
structure TriggerEvent where
  http : Option HttpTrigger
  schedule : Option ScheduleTrigger
deriving Repr

/-- The generated function's `package` rule
(`src/src/index.js` lines 310-314). `include` is a Lean keyword, so that
field is called `includeRules`. -/
structure PackageRule where
  individually : Bool
  exclude : List String
  includeRules : List String
deriving Repr, DecidableEq

/-- The deployment descriptor registered for the generated function
(`src/src/index.js` lines 294-316). -/
structure FnDescriptor where
  description : String
  events : List TriggerEvent
  handler : String
  memorySize : Int
  name : String
  runtime : String
  package : PackageRule
  timeout : Int
deriving Repr

/-- The descriptor value built by `addHealthCheckFunctionToService`
(`src/src/index.js` lines 294-316); `this.pathHandler` is
`folderName + '/index.healthCheck'` (line 96). -/
def healthCheckPluginDescriptor (cfg : HealthcheckConfig) : FnDescriptor :=
  { description := "Serverless HealthCheck Plugin"
    events :=
      [{ http := some { path := cfg.endpoint, method := "get", privateFlag := false }
         schedule := some { rate := cfg.schedule } }]
    handler := cfg.folderName ++ "/index.healthCheck"
    memorySize := cfg.memorySize
    name := cfg.name
    runtime := "nodejs6.10"
    package :=
      { individually := true
        exclude := ["**"]
        includeRules := [cfg.folderName ++ "/**"] }
    timeout := cfg.timeout }

/-- Number of events of a descriptor that carry a schedule trigger. -/
def scheduleTriggerCount (events : List TriggerEvent) : Nat :=
  (events.filter (fun e => e.schedule.isSome)).length

/-- One entry of the older variant's `events` list
(`src/unnamed/part_001` line 279): `{ schedule }` holds the raw schedule
entry directly. -/
structure ScheduleOnlyEvent where
  schedule : JsVal
deriving Repr

/-- The `events` list built by the older variant's
`addHealthCheckFunctionToService` (`src/unnamed/part_001` line 279):
`this.healthcheck.schedule.map(schedule => { return { schedule } })` — one
schedule event per schedule entry, and no HTTP route. -/
def healthCheckPluginEventsV1 (cfg : HealthcheckConfig) : List ScheduleOnlyEvent :=
  cfg.schedule.map (fun s => { schedule := s })

/-- The service's `functions` map (`this.serverless.service.functions`),
modelled as an association list keyed by property name. A JavaScript object
never holds the same key twice. -/
def Manifest := List (String × FnDescriptor)

/-- JavaScript property assignment `m[k] = v` on an object modelled as an
association list: replace the entry when the key is present, append it
otherwise. -/
def jsSetKey {α : Type} (m : List (String × α)) (k : String) (v : α) :
    List (String × α) :=
  if m.any (fun p => p.1 == k) then
    m.map (fun p => if p.1 == k then (k, v) else p)
  else m ++ [(k, v)]

/-- How many entries of the map carry the key. -/
def countKey {α : Type} : List (String × α) → String → Nat
  | [], _ => 0
  | p :: rest, k => (if p.1 == k then 1 else 0) + countKey rest k

/-- Property read `m[k]`: the first entry carrying the key. -/
def lookupKey {α : Type} : List (String × α) → String → Option α
  | [], _ => none
  | p :: rest, k => if p.1 == k then some p.2 else lookupKey rest k

/-- `addHealthCheckFunctionToService` (`src/src/index.js` lines 291-320):
assigns the freshly built descriptor to the fixed key `healthCheckPlugin` of
the service's functions map. (Its `cli.log` of the schedule is modelled in
`createHealthCheck`'s log list.) -/
def addHealthCheckFunctionToService (cfg : HealthcheckConfig) (functions : Manifest) :
    Manifest :=
  jsSetKey functions "healthCheckPlugin" (healthCheckPluginDescriptor cfg)

/-- Escape for string serialization: backslash and double quote (control
characters, which never occur in the values the plugin logs, are left as
they are). -/
def jsonEscape (s : String) : String :=
  s.foldl
    (fun acc c =>
      if c = '"' then acc ++ "\\\""
      else if c = '\\' then acc ++ "\\\\"
      else acc.push c)
    ""

mutual

/-- `JSON.stringify`, as the plugin uses it on log lines and tokens.
`JSON.stringify(undefined)` is the `undefined` value, which string
concatenation renders as `undefined`. -/
def jsonStringify : JsVal → String
  | JsVal.undefined => "undefined"
  | JsVal.null => "null"
  | JsVal.bool true => "true"
  | JsVal.bool false => "false"
  | JsVal.num n => toString n
  | JsVal.str s => "\"" ++ jsonEscape s ++ "\""
  | JsVal.arr xs => "[" ++ jsonStringifyList xs ++ "]"
  | JsVal.obj fs => "\x7b" ++ jsonStringifyFields fs ++ "\x7d"

/-- Comma-joined serialization of an array's elements. -/
def jsonStringifyList : List JsVal → String
  | [] => ""
  | [x] => jsonStringify x
  | x :: y :: xs => jsonStringify x ++ "," ++ jsonStringifyList (y :: xs)

/-- Comma-joined serialization of an object's fields. -/
def jsonStringifyFields : List (String × JsVal) → String
  | [] => ""
  | [(k, v)] => "\"" ++ jsonEscape k ++ "\":" ++ jsonStringify v
  | (k, v) :: f :: fs =>
      "\"" ++ jsonEscape k ++ "\":" ++ jsonStringify v ++ "," ++
        jsonStringifyFields (f :: fs)

end

/-- The log lines of `createHealthCheckFunctionArtifact`
(`src/src/index.js` lines 263-269): a header with the number of targets, then
per target its name followed by one `Params:` line per collected check. -/
def artifactLogLines (functionObjects : List FunctionInfo) : List String :=
  ("HealthCheck: setting " ++ toString functionObjects.length ++
      " lambdas to be checked") ::
    (functionObjects.map (fun f =>
      ("HealthCheck: " ++ f.name) ::
        f.checks.map (fun c => "    Params: " ++ jsonStringify c.params))).flatten

/-- Outcome of one `createHealthCheck` run (`src/src/index.js` lines
186-200): the `cli.log` lines emitted, how many artifact files were written
(the file's rendered contents are modelled separately, at the level of the
embedded target-name list), and the resulting service functions map. The
operation itself always resolves; a run that performed no write and left the
map untouched is the "nothing to do" skip path. -/
structure CreateHealthCheckResult where
  logs : List String
  artifactWrites : Nat
  functions : Manifest

/-- `createHealthCheck` (`src/src/index.js` lines 186-200): select the
targets; when none match, log `no lambda to check` and skip both the artifact
write and `addHealthCheckFunctionToService`; otherwise write the artifact
(logging its lines) and register the descriptor (logging the schedule). -/
def createHealthCheck (fns : List FunctionObject) (activeStage : String)
    (cfg : HealthcheckConfig) (manifest : Manifest) : CreateHealthCheckResult :=
  let functionNames := getFunctionsWithHealthChecks fns activeStage
  if functionNames.length = 0 then
    { logs := ["HealthCheck: no lambda to check"]
      artifactWrites := 0
      functions := manifest }
  else
    { logs := artifactLogLines functionNames ++ [jsonStringify (JsVal.arr cfg.schedule)]
      artifactWrites := 1
      functions := addHealthCheckFunctionToService cfg manifest }

/-- Outcome of one run of the generated handler
(`src/unnamed/part_001` lines 241-264): which targets were invoked, in order;
the final value of its `errors` counter; and whether its completion callback
ran. -/
structure HandlerRun where
  attempted : List String
  errors : Nat
  callbackCalled : Bool
deriving Repr, DecidableEq

/-- One iteration of the generated handler's `forEach` loop: issue the
invocation for this target and, should it fail, count one more error. The
state is `(attempted so far, errors so far)`. -/
def handlerStep (fails : String → Bool) (st : List String × Nat) (functionName : String) :
    List String × Nat :=
  (st.1 ++ [functionName], if fails functionName then st.2 + 1 else st.2)

/-- The generated handler `healthCheck` (`src/unnamed/part_001` lines
241-264), run against a failure pattern `fails` telling which target's
invocation rejects: every target in `functionNames` gets its invocation
issued (the `forEach` loop neither throws nor stops early), each rejection is
absorbed by the per-invocation error handler which increments `errors`, and
once all invocations settle `Promise.all(...).then` runs the completion
callback. Settlement order is abstracted away: the error counter's final
value does not depend on it. -/
def runGeneratedHandler (functionNames : List String) (fails : String → Bool) :
    HandlerRun :=
  let st := functionNames.foldl (handlerStep fails) ([], 0)
  { attempted := st.1, errors := st.2, callbackCalled := true }

/-- `Array.prototype.join` with the default `','` separator, on strings
modelled as character lists (`functionNames.join()`,
`src/unnamed/part_001` line 240). -/
def jsJoinComma : List (List Char) → List Char
  | [] => []
  | [x] => x
  | x :: y :: xs => x ++ ',' :: jsJoinComma (y :: xs)

/-- `String.prototype.split(',')` (`src/unnamed/part_001` line 240):
splitting the empty string yields `[""]`, and each `','` opens a new chunk. -/
def jsSplitComma : List Char → List (List Char)
  | [] => [[]]
  | c :: rest =>
      match jsSplitComma rest with
      | [] => [[c]]
      | h :: t => if c = ',' then [] :: h :: t else (c :: h) :: t

/-- The target-name blob the artifact generator embeds into the generated
source: `"${functionNames.join()}"`. -/
def renderTargetBlob (names : List String) : List Char :=
  jsJoinComma (names.map String.toList)

/-- The target-name list the generated handler parses back out of the
embedded blob: `"...".split(",")`. -/
def parseTargetBlob (blob : List Char) : List String :=
  (jsSplitComma blob).map (fun cs => String.mk cs)

/-- The request parameters of the post-deploy pre-check invocation
(`src/src/index.js` lines 334-340). `process.env.SERVERLESS_ALIAS ||
'$LATEST'` falls back on an absent or empty (falsy) environment variable. -/
structure InvokeParams where
  functionName : String
  invocationType : String
  logType : String
  qualifier : String
  payload : String
deriving Repr, DecidableEq

/-- Builds the pre-check invocation parameters
(`src/src/index.js` lines 334-340). -/
def precheckParams (cfg : HealthcheckConfig) (envAlias : Option String) : InvokeParams :=
  { functionName := cfg.name
    invocationType := "RequestResponse"
    logType := "None"
    qualifier :=
      match envAlias with
      | some a => if a = "" then "$LATEST" else a
      | none => "$LATEST"
    payload := "\x7b\"source\":\"serverless-plugin-healthcheck\"\x7d" }

/-- The parsed payload of a resolved pre-check invocation
(`JSON.parse(data.Payload)`): the fields `healthCheckFunctions` inspects,
`undefined` when absent from the JSON document. -/
structure ResponsePayload where
  statusCode : JsVal
  errorMessage : JsVal
deriving Repr

/-- How the cloud invocation call settled: the promise resolved with a
payload, or rejected with an error. -/
inductive InvokeOutcome where
  | resolved (response : ResponsePayload) : InvokeOutcome
  | rejected (error : String) : InvokeOutcome
deriving Repr

/-- The failure test of `healthCheckFunctions`
(`src/src/index.js` line 345):
`(response.statusCode && response.statusCode !== 200) || response.errorMessage`. -/
def precheckFailureTest (r : ResponsePayload) : Bool :=
  (jsTruthy r.statusCode && !(r.statusCode == JsVal.num 200)) || jsTruthy r.errorMessage

/-- Observable outcome of the post-deploy hook: the invocation requests it
issued and the log lines it emitted. Being a total function, the hook always
completes — a rejected invocation is absorbed by the `.catch` handler. -/
structure PrecheckRun where
  requests : List InvokeParams
  logs : List String
deriving Repr, DecidableEq

/-- String concatenation with a JavaScript value
(`'...' + response.errorMessage`): `undefined` renders as `undefined` and a
string is spliced in unquoted. -/
def jsConcat (s : String) : JsVal → String
  | JsVal.str t => s ++ t
  | JsVal.undefined => s ++ "undefined"
  | JsVal.null => s ++ "null"
  | JsVal.bool true => s ++ "true"
  | JsVal.bool false => s ++ "false"
  | JsVal.num n => s ++ toString n
  | v => s ++ jsonStringify v

/-- `healthCheckFunctions` (`src/src/index.js` lines 330-352): log the start
line, issue exactly one invocation with the pre-check parameters, then on
resolution log the failure line (when the failure test holds) or the success
line, and on rejection have `.catch` log the error line. -/
def healthCheckFunctions (cfg : HealthcheckConfig) (envAlias : Option String)
    (outcome : InvokeOutcome) : PrecheckRun :=
  { requests := [precheckParams cfg envAlias]
    logs :=
      "HealthCheck: Pre-checking up your functions" ::
        match outcome with
        | InvokeOutcome.resolved r =>
            if precheckFailureTest r then
              [jsConcat "HealthCheck: Failure: " r.errorMessage]
            else
              ["HealthCheck: Functions successfuly pre-checked"]
        | InvokeOutcome.rejected e =>
            ["HealthCheck: Error while pre-checking functions" ++ e] }

/-- `afterDeployFunctions` (`src/src/index.js` lines 76-81): resolve the
configuration, then run the pre-check only when its `precheck` flag is true;
otherwise neither invoke nor log anything. -/
def afterDeployFunctions (cfg : HealthcheckConfig) (envAlias : Option String)
    (outcome : InvokeOutcome) : PrecheckRun :=
  if cfg.precheck then healthCheckFunctions cfg envAlias outcome
  else { requests := [], logs := [] }

theorem jsIndexOfFrom_eq_neg_one_iff (xs : List JsVal) (v : JsVal) :
    ∀ i : Int, 0 ≤ i →
      ((jsIndexOfFrom xs v i = -1) ↔ xs.any (fun x => x == v) = false) := by
  induction xs with
  | nil => intro i _; simp [jsIndexOfFrom]
  | cons x rest ih =>
      intro i hi
      by_cases hx : (x == v) = true
      · constructor
        · intro h
          simp only [jsIndexOfFrom, hx, if_true] at h
          omega
        · intro h
          simp [hx] at h
      · have hstep : jsIndexOfFrom (x :: rest) v i = jsIndexOfFrom rest v (i + 1) := by
          simp [jsIndexOfFrom, hx]
        rw [hstep, ih (i + 1) (by omega)]
        simp [hx]

theorem stageMatches_eq_spec (d : JsVal) (s : String) :
    stageMatches d s = spec_targetIncluded d s := by
  cases d <;> simp [stageMatches, spec_targetIncluded]
  case arr xs =>
    have h := jsIndexOfFrom_eq_neg_one_iff xs (JsVal.str s) 0 (by omega)
    cases hc : xs.any (fun x => x == JsVal.str s) <;>
      simp [jsIndexOf, hc] at h ⊢ <;> omega

/-- C1: for every set of function descriptors and every active stage, the
target selector includes a descriptor in the TargetSet if and only if its
health-check declaration is boolean `true`, or is a string equal to the
active stage, or is a list containing the active stage string; every other
declaration shape (including absent) excludes it, and the output order equals
the input declaration order — i.e. the selector equals the filter of the
input-ordered descriptor list by the spec's inclusion predicate. -/
theorem targetSelector_matches_spec (fns : List FunctionObject) (activeStage : String) :
    getFunctionsWithHealthChecks fns activeStage =
      (fns.map healthCheckInfo).filter
        (fun info => spec_targetIncluded info.stage activeStage) := by
  unfold getFunctionsWithHealthChecks
  exact List.filter_congr (fun info _ => stageMatches_eq_spec info.stage activeStage)

theorem handler_foldl_spec (fails : String → Bool) (names : List String) :
    ∀ acc : List String, ∀ errs : Nat,
      names.foldl (handlerStep fails) (acc, errs) =
        (acc ++ names, errs + (names.filter fails).length) := by
  induction names with
  | nil => intro acc errs; simp
  | cons n ns ih =>
      intro acc errs
      by_cases h : fails n = true
      · simp [handlerStep, h, ih, List.filter_cons]
        omega
      · simp [handlerStep, h, ih, List.filter_cons]

/-- C3: the generated handler, for every target list and every pattern of
per-target invocation failures, attempts all invocations in order (no
short-circuit on an earlier failure), records each failure by incrementing
its error counter without aborting — the final counter equals the number of
failed targets — and always runs its completion callback. -/
theorem generatedHandler_attempts_all (names : List String) (fails : String → Bool) :
    (runGeneratedHandler names fails).attempted = names ∧
    (runGeneratedHandler names fails).errors = (names.filter fails).length ∧
    (runGeneratedHandler names fails).callbackCalled = true := by
  unfold runGeneratedHandler
  rw [handler_foldl_spec fails names [] 0]
  simp

theorem overrideBool_of_bool (b : Bool) (d : Bool) : overrideBool (JsVal.bool b) d = b := rfl

theorem overrideBool_of_mismatch (v : JsVal) (d : Bool) (h : jsIsBool v = false) :
    overrideBool v d = d := by
  cases v <;> simp_all [overrideBool, jsIsBool]

theorem overrideNum_of_num (n : Int) (d : Int) : overrideNum (JsVal.num n) d = n := rfl

theorem overrideNum_of_mismatch (v : JsVal) (d : Int) (h : jsIsNum v = false) :
    overrideNum v d = d := by
  cases v <;> simp_all [overrideNum, jsIsNum]

theorem overrideStr_of_str (s : String) (d : String) : overrideStr (JsVal.str s) d = s := rfl

theorem overrideStr_of_mismatch (v : JsVal) (d : String) (h : jsIsStr v = false) :
    overrideStr v d = d := by
  cases v <;> simp_all [overrideStr, jsIsStr]

/-- C2: for every user override object, configuration resolution applies each
field's override only when the supplied value has the expected type for that
field (boolean for `cleanFolder`/`precheck`, number for
`memorySize`/`timeout`, string for `name`/`endpoint`/`folderName`/`role`) and
otherwise retains that field's default. Each field's conjunct constrains the
result through that field of the override record alone, so the fields fall
back independently, and `configPlugin` is a total function — resolution
never fails. -/
theorem configPlugin_typed_overrides (service stage : String) (c : CustomHealthcheck) :
    (∀ b, c.cleanFolder = JsVal.bool b →
        (configPlugin service stage (some c)).cleanFolder = b) ∧
    (jsIsBool c.cleanFolder = false →
        (configPlugin service stage (some c)).cleanFolder = true) ∧
    (∀ b, c.precheck = JsVal.bool b →
        (configPlugin service stage (some c)).precheck = b) ∧
    (jsIsBool c.precheck = false →
        (configPlugin service stage (some c)).precheck = false) ∧
    (∀ n, c.memorySize = JsVal.num n →
        (configPlugin service stage (some c)).memorySize = n) ∧
    (jsIsNum c.memorySize = false →
        (configPlugin service stage (some c)).memorySize = 128) ∧
    (∀ n, c.timeout = JsVal.num n →
        (configPlugin service stage (some c)).timeout = n) ∧
    (jsIsNum c.timeout = false →
        (configPlugin service stage (some c)).timeout = 10) ∧
    (∀ s, c.name = JsVal.str s →
        (configPlugin service stage (some c)).name = s) ∧
    (jsIsStr c.name = false →
        (configPlugin service stage (some c)).name = defaultName service stage) ∧
    (∀ s, c.endpoint = JsVal.str s →
        (configPlugin service stage (some c)).endpoint = s) ∧
    (jsIsStr c.endpoint = false →
        (configPlugin service stage (some c)).endpoint = "__health") ∧
    (∀ s, c.folderName = JsVal.str s →
        (configPlugin service stage (some c)).folderName = s) ∧
    (jsIsStr c.folderName = false →
        (configPlugin service stage (some c)).folderName = "_healthcheck") ∧
    (∀ s, c.role = JsVal.str s →
        (configPlugin service stage (some c)).role = some s) ∧
    (jsIsStr c.role = false →
        (configPlugin service stage (some c)).role = none) := by
  refine ⟨?_, ?_, ?_, ?_, ?_, ?_, ?_, ?_, ?_, ?_, ?_, ?_, ?_, ?_, ?_, ?_⟩
  · intro b h; simp [configPlugin, h, overrideBool_of_bool]
  · intro h; simp [configPlugin, overrideBool_of_mismatch _ _ h]
  · intro b h; simp [configPlugin, h, overrideBool_of_bool]
  · intro h; simp [configPlugin, overrideBool_of_mismatch _ _ h]
  · intro n h; simp [configPlugin, h, overrideNum_of_num]
  · intro h; simp [configPlugin, overrideNum_of_mismatch _ _ h]
  · intro n h; simp [configPlugin, h, overrideNum_of_num]
  · intro h; simp [configPlugin, overrideNum_of_mismatch _ _ h]
  · intro s h; simp [configPlugin, h, overrideStr_of_str]
  · intro h; simp [configPlugin, overrideStr_of_mismatch _ _ h]
  · intro s h; simp [configPlugin, h, overrideStr_of_str]
  · intro h; simp [configPlugin, overrideStr_of_mismatch _ _ h]
  · intro s h; simp [configPlugin, h, overrideStr_of_str]
  · intro h; simp [configPlugin, overrideStr_of_mismatch _ _ h]
  · intro s h; simp [configPlugin, h]
  · intro h; cases hr : c.role <;> simp_all [configPlugin, jsIsStr]

/-- Witness for C2 at concrete inputs: `memorySize: "256"` (a string) leaves
`memorySize` at its default 128 while `memorySize: 256` applies, and a
boolean `cleanFolder: false` applies. -/
theorem configPlugin_typed_overrides_witness :
    (configPlugin "service" "dev"
        (some { memorySize := JsVal.str "256" })).memorySize = 128 ∧
    (configPlugin "service" "dev"
        (some { memorySize := JsVal.num 256 })).memorySize = 256 ∧
    (configPlugin "service" "dev"
        (some { cleanFolder := JsVal.bool false })).cleanFolder = false :=
  ⟨(configPlugin_typed_overrides "service" "dev"
      { memorySize := JsVal.str "256" }).2.2.2.2.2.1 rfl,
   (configPlugin_typed_overrides "service" "dev"
      { memorySize := JsVal.num 256 }).2.2.2.2.1 256 rfl,
   (configPlugin_typed_overrides "service" "dev"
      { cleanFolder := JsVal.bool false }).1 false rfl⟩

/-- C7: configuration resolution normalizes the `schedule` field: a single
string override resolves to the one-element sequence containing that string,
an array override resolves to that array unchanged, and any other override
shape leaves the default schedule list in place. -/
theorem schedule_normalization (service stage : String) (c : CustomHealthcheck) :
    (∀ s, c.schedule = JsVal.str s →
        (configPlugin service stage (some c)).schedule = [JsVal.str s]) ∧
    (∀ xs, c.schedule = JsVal.arr xs →
        (configPlugin service stage (some c)).schedule = xs) ∧
    (jsIsStr c.schedule = false → jsIsArray c.schedule = false →
        (configPlugin service stage (some c)).schedule = defaultSchedule) := by
  refine ⟨?_, ?_, ?_⟩
  · intro s h; simp [configPlugin, h]
  · intro xs h; simp [configPlugin, h]
  · intro hs ha; cases hv : c.schedule <;> simp_all [configPlugin, jsIsStr, jsIsArray]

/-- Witness for C7 at concrete inputs: the spec's own examples
`schedule: "rate(1 minute)"` and `schedule: ["a","b"]`, plus a number (a
shape that is neither string nor array) falling back to the default. -/
theorem schedule_normalization_witness :
    (configPlugin "svc" "dev"
        (some { schedule := JsVal.str "rate(1 minute)" })).schedule =
      [JsVal.str "rate(1 minute)"] ∧
    (configPlugin "svc" "dev"
        (some { schedule := JsVal.arr [JsVal.str "a", JsVal.str "b"] })).schedule =
      [JsVal.str "a", JsVal.str "b"] ∧
    (configPlugin "svc" "dev" (some { schedule := JsVal.num 5 })).schedule =
      defaultSchedule :=
  ⟨(schedule_normalization "svc" "dev" _).1 "rate(1 minute)" rfl,
   (schedule_normalization "svc" "dev" _).2.1 [JsVal.str "a", JsVal.str "b"] rfl,
   (schedule_normalization "svc" "dev" _).2.2 rfl rfl⟩

theorem countKey_pos_of_any {α : Type} (m : List (String × α)) (k : String)
    (h : m.any (fun p => p.1 == k) = true) : 0 < countKey m k := by
  induction m with
  | nil => simp at h
  | cons p rest ih =>
      by_cases hp : (p.1 == k) = true
      · simp [countKey, hp]
      · simp only [List.any_cons, hp, Bool.false_or] at h
        have := ih h
        simp [countKey, hp]
        omega

theorem countKey_eq_zero_of_not_any {α : Type} (m : List (String × α)) (k : String)
    (h : m.any (fun p => p.1 == k) = false) : countKey m k = 0 := by
  induction m with
  | nil => rfl
  | cons p rest ih =>
      simp only [List.any_cons, Bool.or_eq_false_iff] at h
      simp [countKey, h.1, ih h.2]

theorem countKey_append {α : Type} (a b : List (String × α)) (k : String) :
    countKey (a ++ b) k = countKey a k + countKey b k := by
  induction a with
  | nil => simp [countKey]
  | cons p rest ih => simp [countKey, ih]; omega

theorem countKey_map_set {α : Type} (m : List (String × α)) (k : String) (v : α) :
    countKey (m.map (fun p => if p.1 == k then (k, v) else p)) k = countKey m k := by
  induction m with
  | nil => rfl
  | cons p rest ih =>
      simp only [List.map_cons]
      by_cases hp : p.1 = k
      · simp [countKey, hp] at ih ⊢
        exact ih
      · simp [countKey, hp] at ih ⊢
        exact ih

theorem countKey_jsSetKey_of_le {α : Type} (m : List (String × α)) (k : String) (v : α)
    (h : countKey m k ≤ 1) : countKey (jsSetKey m k v) k = 1 := by
  unfold jsSetKey
  by_cases ha : m.any (fun p => p.1 == k) = true
  · rw [if_pos ha, countKey_map_set]
    have := countKey_pos_of_any m k ha
    omega
  · rw [if_neg ha, countKey_append,
      countKey_eq_zero_of_not_any m k (by simp only [Bool.not_eq_true] at ha; exact ha)]
    simp [countKey]

theorem lookupKey_jsSetKey_self {α : Type} (m : List (String × α)) (k : String) (v : α) :
    lookupKey (jsSetKey m k v) k = some v := by
  induction m with
  | nil => simp [jsSetKey, lookupKey]
  | cons p rest ih =>
      by_cases hp : p.1 = k
      · have hany : (p :: rest).any (fun q => q.1 == k) = true := by
          simp [List.any_cons, hp]
        simp [jsSetKey, hany, lookupKey, hp]
      · have hhead : (p.1 == k) = false := by simp [hp]
        simp only [jsSetKey, List.any_cons, hhead, Bool.false_or] at ih ⊢
        by_cases ha : rest.any (fun q => q.1 == k) = true
        · simp only [ha, if_true] at ih ⊢
          simp only [List.map_cons, hhead, if_false, Bool.false_eq_true]
          simp [lookupKey, hp] at ih ⊢
          exact ih
        · simp only [ha, if_false, Bool.false_eq_true] at ih ⊢
          simp [lookupKey, hp] at ih ⊢
          exact ih

/-- C6: registering the generated function descriptor twice in one run (with
possibly different configurations) leaves exactly one entry under the fixed
reserved key `healthCheckPlugin` in the deployment manifest, holding the
second call's descriptor: the second registration overwrites rather than
accumulates. The hypothesis records that a JavaScript object never carries a
key twice to begin with. -/
theorem binder_register_overwrites (cfg1 cfg2 : HealthcheckConfig) (m : Manifest)
    (h : countKey m "healthCheckPlugin" ≤ 1) :
    countKey
        (addHealthCheckFunctionToService cfg2
          (addHealthCheckFunctionToService cfg1 m)) "healthCheckPlugin" = 1 ∧
    lookupKey
        (addHealthCheckFunctionToService cfg2
          (addHealthCheckFunctionToService cfg1 m)) "healthCheckPlugin" =
      some (healthCheckPluginDescriptor cfg2) := by
  unfold addHealthCheckFunctionToService
  refine ⟨?_, lookupKey_jsSetKey_self _ _ _⟩
  apply countKey_jsSetKey_of_le
  rw [countKey_jsSetKey_of_le m _ _ h]

/-- Witness for C6: starting from an empty functions map, registering with a
`dev`-stage configuration and then with a `prod`-stage one leaves exactly one
`healthCheckPlugin` entry, holding the second configuration's descriptor. -/
theorem binder_register_overwrites_witness :
    countKey
        (addHealthCheckFunctionToService (configPlugin "svc" "prod" none)
          (addHealthCheckFunctionToService (configPlugin "svc" "dev" none) []))
        "healthCheckPlugin" = 1 ∧
    lookupKey
        (addHealthCheckFunctionToService (configPlugin "svc" "prod" none)
          (addHealthCheckFunctionToService (configPlugin "svc" "dev" none) []))
        "healthCheckPlugin" =
      some (healthCheckPluginDescriptor (configPlugin "svc" "prod" none)) :=
  binder_register_overwrites (configPlugin "svc" "dev" none)
    (configPlugin "svc" "prod" none) [] (by simp [countKey])

/-- C4: for every input where zero function descriptors match the active
stage, the packaging operation writes no artifact file, registers no
deployment descriptor (the service's functions map is returned unchanged),
emits the log line reporting no targets, and completes successfully (the
skip path returns a result rather than an error). -/
theorem createHealthCheck_no_targets (fns : List FunctionObject) (stage : String)
    (cfg : HealthcheckConfig) (m : Manifest)
    (h : ∀ f ∈ fns, stageMatches f.healthcheck stage = false) :
    createHealthCheck fns stage cfg m =
      { logs := ["HealthCheck: no lambda to check"]
        artifactWrites := 0
        functions := m } := by
  have hempty : getFunctionsWithHealthChecks fns stage = [] := by
    unfold getFunctionsWithHealthChecks
    apply List.filter_eq_nil_iff.mpr
    intro info hinfo
    obtain ⟨f, hf, rfl⟩ := List.mem_map.mp hinfo
    simpa [healthCheckInfo] using h f hf
  simp [createHealthCheck, hempty]

/-- Witness for C4: one declared function gated to stage `prod` (and carrying
an event-level check), deployed at stage `dev`, against a nonempty manifest:
no write, the manifest comes back unchanged, and only the no-target log line
is emitted. -/
theorem createHealthCheck_no_targets_witness :
    createHealthCheck
        [{ name := "svc-dev-f1"
           healthcheck := JsVal.str "prod"
           events := [{ healthcheck := JsVal.obj [("params", JsVal.obj [])] }] }]
        "dev" (configPlugin "svc" "dev" none)
        [("existing", healthCheckPluginDescriptor (configPlugin "svc" "dev" none))] =
      { logs := ["HealthCheck: no lambda to check"]
        artifactWrites := 0
        functions :=
          [("existing", healthCheckPluginDescriptor (configPlugin "svc" "dev" none))] } :=
  createHealthCheck_no_targets _ _ _ _ (by decide)

/-- Counterexample for C5 as stated: with a resolved schedule list of two
entries, the endpoint-style binder's descriptor carries exactly ONE schedule
trigger (whose `rate` holds the whole two-entry list), not one schedule
trigger per schedule entry. -/
theorem binder_schedule_per_entry_cex :
    scheduleTriggerCount
        (healthCheckPluginDescriptor
          { folderName := "_healthcheck"
            cleanFolder := true
            memorySize := 128
            role := none
            name := "svc-dev-healthcheck-plugin"
            schedule := [JsVal.str "rate(5 minutes)", JsVal.str "rate(1 hour)"]
            timeout := 10
            precheck := false
            endpoint := "__health" }).events = 1 ∧
    ([JsVal.str "rate(5 minutes)", JsVal.str "rate(1 hour)"] : List JsVal).length = 2 ∧
    (1 : Nat) ≠ 2 := by
  refine ⟨rfl, rfl, by decide⟩

/-- C5 as amended: for every resolved configuration, the endpoint-style
binder builds exactly one new function descriptor whose event list is a
single event carrying the configured HTTP route (method `get`, private
`false`) together with a single schedule trigger whose `rate` field is the
configuration's entire schedule list, along with the configured memory size,
name, timeout, and a packaging rule excluding everything except the
generated artifact's folder; in the older schedule-only variant the event
list instead holds one schedule event per entry of the schedule list (and no
HTTP route). -/
theorem binder_descriptor_shape (cfg : HealthcheckConfig) :
    (healthCheckPluginDescriptor cfg).events =
      [{ http := some { path := cfg.endpoint, method := "get", privateFlag := false }
         schedule := some { rate := cfg.schedule } }] ∧
    scheduleTriggerCount (healthCheckPluginDescriptor cfg).events = 1 ∧
    (healthCheckPluginDescriptor cfg).memorySize = cfg.memorySize ∧
    (healthCheckPluginDescriptor cfg).name = cfg.name ∧
    (healthCheckPluginDescriptor cfg).timeout = cfg.timeout ∧
    (healthCheckPluginDescriptor cfg).package =
      { individually := true
        exclude := ["**"]
        includeRules := [cfg.folderName ++ "/**"] } ∧
    healthCheckPluginEventsV1 cfg = cfg.schedule.map (fun s => { schedule := s }) ∧
    (healthCheckPluginEventsV1 cfg).length = cfg.schedule.length := by
  refine ⟨rfl, rfl, rfl, rfl, rfl, rfl, rfl, ?_⟩
  simp [healthCheckPluginEventsV1]

theorem jsSplitComma_ne_nil (s : List Char) : jsSplitComma s ≠ [] := by
  cases s with
  | nil => simp [jsSplitComma]
  | cons c rest =>
      simp only [jsSplitComma]
      rcases h : jsSplitComma rest with _ | ⟨hd, tl⟩
      · simp
      · by_cases hc : c = ',' <;> simp [hc]

theorem jsSplitComma_no_comma (x : List Char) (hx : ',' ∉ x) :
    jsSplitComma x = [x] := by
  induction x with
  | nil => rfl
  | cons c rest ih =>
      have hc : ¬ c = ',' := fun h => hx (h ▸ List.mem_cons_self c rest)
      have hr : ',' ∉ rest := fun h => hx (List.mem_cons_of_mem c h)
      simp [jsSplitComma, ih hr, hc]

theorem jsSplitComma_append (x s : List Char) (hx : ',' ∉ x) :
    jsSplitComma (x ++ ',' :: s) = x :: jsSplitComma s := by
  induction x with
  | nil =>
      simp only [List.nil_append, jsSplitComma]
      rcases h : jsSplitComma s with _ | ⟨hd, tl⟩
      · exact absurd h (jsSplitComma_ne_nil s)
      · simp
  | cons c x' ih =>
      have hc : ¬ c = ',' := fun h => hx (h ▸ List.mem_cons_self c x')
      have hx' : ',' ∉ x' := fun h => hx (List.mem_cons_of_mem c h)
      simp only [List.cons_append, jsSplitComma, List.append_eq, ih hx']
      simp [hc]

theorem jsSplit_jsJoin (ns : List (List Char)) (hne : ns ≠ [])
    (h : ∀ x ∈ ns, ',' ∉ x) : jsSplitComma (jsJoinComma ns) = ns := by
  induction ns with
  | nil => exact absurd rfl hne
  | cons x rest ih =>
      cases rest with
      | nil =>
          simp only [jsJoinComma]
          exact jsSplitComma_no_comma x (h x (List.mem_cons_self x []))
      | cons y rest' =>
          have hx : ',' ∉ x := h x (List.mem_cons_self x (y :: rest'))
          have hjoin : jsJoinComma (x :: y :: rest') = x ++ ',' :: jsJoinComma (y :: rest') :=
            rfl
          rw [hjoin, jsSplitComma_append x _ hx,
            ih (by simp) (fun z hz => h z (List.mem_cons_of_mem x hz))]

/-- Counterexample for C8 as stated: a TargetSet whose single function name
contains a comma does not survive the round-trip — the embedded
`join()`/`split(",")` pair splits the name `"a,b"` into the two names
`"a"` and `"b"`. -/
theorem artifact_roundtrip_cex :
    parseTargetBlob (renderTargetBlob ["a,b"]) = ["a", "b"] ∧
    (["a", "b"] : List String) ≠ ["a,b"] := by
  refine ⟨by decide, by decide⟩

/-- C8 as amended: for every nonempty TargetSet whose function names contain
no comma, rendering the artifact's embedded target blob and parsing it back
out recovers exactly the names and order of the original TargetSet.
(Nonemptiness costs nothing in practice: the artifact is only rendered when
at least one target matched. A comma can never occur in a deployed function
name, but the claim as stated quantifies over all names.) -/
theorem artifact_roundtrip (names : List String) (hne : names ≠ [])
    (h : ∀ n ∈ names, ',' ∉ n.toList) :
    parseTargetBlob (renderTargetBlob names) = names := by
  unfold parseTargetBlob renderTargetBlob
  rw [jsSplit_jsJoin (names.map String.toList)
      (by simpa using hne)
      (by intro x hx
          obtain ⟨n, hn, rfl⟩ := List.mem_map.mp hx
          exact h n hn)]
  rw [List.map_map,
    show ((fun cs => String.mk cs) ∘ String.toList) = id from funext fun s => rfl,
    List.map_id]

/-- Witness for C8: two comma-free names round-trip unchanged. -/
theorem artifact_roundtrip_witness :
    parseTargetBlob (renderTargetBlob ["svc-dev-f1", "svc-dev-f2"]) =
      ["svc-dev-f1", "svc-dev-f2"] :=
  artifact_roundtrip ["svc-dev-f1", "svc-dev-f2"] (by decide) (by decide)

theorem jsBeq_num_iff (v : JsVal) (m : Int) :
    ((v == JsVal.num m) = true) ↔ v = JsVal.num m := by
  cases v <;> simp [BEq.beq, JsVal.beq]

theorem jsBeq_num_eq_false_iff (v : JsVal) (m : Int) :
    ((v == JsVal.num m) = false) ↔ v ≠ JsVal.num m := by
  constructor
  · intro h he
    rw [he] at h
    simp [BEq.beq, JsVal.beq] at h
  · intro h
    cases hb : (v == JsVal.num m)
    · rfl
    · exact absurd ((jsBeq_num_iff v m).mp hb) h

/-- Counterexample for C9 as stated: a response payload embedding the status
code `0` — which is non-200 — and no error message is classified a SUCCESS by
the code (`response.statusCode && ...` short-circuits on the falsy `0`),
where the claim says every non-200 embedded status code is classified a
failure. -/
theorem precheck_statusCode_zero_cex :
    precheckFailureTest { statusCode := JsVal.num 0, errorMessage := JsVal.undefined } =
      false ∧
    (healthCheckFunctions (configPlugin "svc" "dev" none) none
        (InvokeOutcome.resolved
          { statusCode := JsVal.num 0, errorMessage := JsVal.undefined })).logs =
      ["HealthCheck: Pre-checking up your functions",
       "HealthCheck: Functions successfuly pre-checked"] ∧
    (0 : Int) ≠ 200 := by
  refine ⟨rfl, rfl, by decide⟩

/-- C9 as amended: the pre-check runs only when the resolved configuration's
`precheck` flag is true; it then issues exactly one invocation (with the
configured function name and the fixed parameters); it classifies a resolved
response as a failure — reported with the error detail — exactly when the
embedded status code is truthy (present and non-zero) and different from 200,
or the embedded error message is truthy (present and non-empty), and as a
success otherwise; and a rejected invocation is caught and logged, so the
hook (a total function) always completes and never propagates the failure. -/
theorem precheck_behavior (cfg : HealthcheckConfig) (envAlias : Option String)
    (outcome : InvokeOutcome) :
    (cfg.precheck = false →
      afterDeployFunctions cfg envAlias outcome = { requests := [], logs := [] }) ∧
    (cfg.precheck = true →
      (afterDeployFunctions cfg envAlias outcome).requests =
        [precheckParams cfg envAlias]) ∧
    (∀ r : ResponsePayload,
      precheckFailureTest r = true ↔
        ((jsTruthy r.statusCode = true ∧ r.statusCode ≠ JsVal.num 200) ∨
          jsTruthy r.errorMessage = true)) ∧
    (∀ r, cfg.precheck = true → outcome = InvokeOutcome.resolved r →
      precheckFailureTest r = true →
      (afterDeployFunctions cfg envAlias outcome).logs =
        ["HealthCheck: Pre-checking up your functions",
         jsConcat "HealthCheck: Failure: " r.errorMessage]) ∧
    (∀ r, cfg.precheck = true → outcome = InvokeOutcome.resolved r →
      precheckFailureTest r = false →
      (afterDeployFunctions cfg envAlias outcome).logs =
        ["HealthCheck: Pre-checking up your functions",
         "HealthCheck: Functions successfuly pre-checked"]) ∧
    (∀ e, cfg.precheck = true → outcome = InvokeOutcome.rejected e →
      (afterDeployFunctions cfg envAlias outcome).logs =
        ["HealthCheck: Pre-checking up your functions",
         "HealthCheck: Error while pre-checking functions" ++ e]) := by
  refine ⟨?_, ?_, ?_, ?_, ?_, ?_⟩
  · intro h; simp [afterDeployFunctions, h]
  · intro h; simp [afterDeployFunctions, h, healthCheckFunctions]
  · intro r
    unfold precheckFailureTest
    simp [Bool.or_eq_true, Bool.and_eq_true, Bool.not_eq_true', jsBeq_num_eq_false_iff]
  · intro r h1 h2 h3
    subst h2
    simp [afterDeployFunctions, h1, healthCheckFunctions, h3]
  · intro r h1 h2 h3
    subst h2
    simp [afterDeployFunctions, h1, healthCheckFunctions, h3]
  · intro e h1 h2
    subst h2
    simp [afterDeployFunctions, h1, healthCheckFunctions]

/-- Witness for C9: with `precheck: true` and a resolved response embedding
status 500, the failure line (with the — absent — error detail rendered as
`undefined`) is logged; with the default configuration (`precheck` false) a
rejected invocation produces no request and no log at all. -/
theorem precheck_behavior_witness :
    (configPlugin "svc" "dev" (some { precheck := JsVal.bool true })).precheck = true ∧
    (afterDeployFunctions
        (configPlugin "svc" "dev" (some { precheck := JsVal.bool true })) none
        (InvokeOutcome.resolved
          { statusCode := JsVal.num 500, errorMessage := JsVal.undefined })).logs =
      ["HealthCheck: Pre-checking up your functions",
       "HealthCheck: Failure: undefined"] ∧
    afterDeployFunctions (configPlugin "svc" "dev" none) none
        (InvokeOutcome.rejected "TimeoutError") = { requests := [], logs := [] } :=
  ⟨rfl,
   ((precheck_behavior (configPlugin "svc" "dev" (some { precheck := JsVal.bool true }))
        none
        (InvokeOutcome.resolved
          { statusCode := JsVal.num 500, errorMessage := JsVal.undefined })).2.2.2.1
      { statusCode := JsVal.num 500, errorMessage := JsVal.undefined }
      rfl rfl (by decide)).trans (by rfl),
   (precheck_behavior (configPlugin "svc" "dev" none) none
      (InvokeOutcome.rejected "TimeoutError")).1 rfl⟩

/-- C10: in the rich per-route variant, inclusion in the TargetSet is decided
solely by the function-level health-check declaration — the selector equals
the function-level filter followed by the per-function mapping (the filter
predicate never inspects the events) — so a function whose events carry
event-level healthcheck declarations but whose function-level declaration
does not match is excluded entirely and its event-level checks are never
collected; event-level declarations alone never make a function a target. -/
theorem functionLevel_decl_decides (fns : List FunctionObject) (stage : String) :
    getFunctionsWithHealthChecks fns stage =
      (fns.filter (fun f => stageMatches f.healthcheck stage)).map healthCheckInfo ∧
    ∀ f : FunctionObject, stageMatches f.healthcheck stage = false →
      healthCheckInfo f ∉ getFunctionsWithHealthChecks fns stage := by
  constructor
  · unfold getFunctionsWithHealthChecks
    rw [List.filter_map]
    rfl
  · intro f hf hmem
    unfold getFunctionsWithHealthChecks at hmem
    have hmatch := (List.mem_filter.mp hmem).2
    rw [show (healthCheckInfo f).stage = f.healthcheck from rfl, hf] at hmatch
    simp at hmatch

/-- Witness for C10: a function with no function-level declaration but with
an event-level healthcheck declaration on its one event is not selected. -/
theorem functionLevel_decl_decides_witness :
    stageMatches JsVal.undefined "prod" = false ∧
    healthCheckInfo
        { name := "evt-only"
          healthcheck := JsVal.undefined
          events := [{ healthcheck := JsVal.obj [("params", JsVal.obj [])] }] } ∉
      getFunctionsWithHealthChecks
        [{ name := "evt-only"
           healthcheck := JsVal.undefined
           events := [{ healthcheck := JsVal.obj [("params", JsVal.obj [])] }] }]
        "prod" :=
  ⟨rfl,
   (functionLevel_decl_decides
      [{ name := "evt-only"
         healthcheck := JsVal.undefined
         events := [{ healthcheck := JsVal.obj [("params", JsVal.obj [])] }] }]
      "prod").2 _ rfl⟩
